import Mathlib

/-!
# money-keeper: the transaction ledger of `src/pages/Index.jsx`

A shallow embedding of the state of the `Index` component and of its handlers
(`handleFormSubmit`, `handleEditClick`, `handleDeleteClick`,
`calculateTotalBalance`, `getFilteredTransactions`), followed by the
properties of the ledger proved about them.

Modelling conventions.
* A JavaScript number used as an amount is an IEEE 754 binary64 value, `F64`:
  `NaN`, the two infinities and the finite values, the two zeros included;
  `+` and `-` round the exact result to nearest, ties to even, at every step.
* Ids are natural numbers: the literals `1`, `2` and the millisecond clock
  readings returned by `new Date().getTime()`.
* The component state of the `useState` hooks is one record `State`; a handler
  is a function from the state it closes over to the next state.
* `toast(...)` calls are recorded, in order, in the field `toasts`.
* The `Date` constructor is a built-in of the language, not code of the
  repository: the time value of `new Date(s)` is a parameter
  `dateValue : String → Option Int`, `none` standing for an invalid date
  (whose time value is `NaN`). `parseFloat` is a parameter in the same way
  where the raw text of the amount control is read.
* The form element runs `handleFormSubmit` only when its controls validate;
  the check of the controls marked `isRequired` is modelled, the other
  constraints the controls declare (`type`, `step`) are a parameter.
-/

namespace MoneyKeeper

/-! ### JavaScript numbers -/

/-- A JavaScript number. `fin neg m e` is the finite value
`(-1)^neg * m * 2^e`; a double is written with `m < 2^53` and
`-1074 ≤ e ≤ 971`, and with `2^52 ≤ m` unless `e = -1074`. The zeros are
`fin false 0 (-1074)` and `fin true 0 (-1074)`. -/
inductive F64 where
  | nan
  | inf (neg : Bool)
  | fin (neg : Bool) (m : Nat) (e : Int)
deriving DecidableEq

namespace F64

def bitLenAux : Nat → Nat → Nat
  | 0, _ => 0
  | fuel + 1, n => if n = 0 then 0 else bitLenAux fuel (n / 2) + 1

/-- The number of binary digits of `n`. -/
def bitLen (n : Nat) : Nat := bitLenAux n n

/-- The double nearest to `(-1)^neg * m * 2^e`, ties to the even significand,
an infinity past the largest finite double. -/
def round (neg : Bool) (m : Nat) (e : Int) : F64 :=
  if m = 0 then fin neg 0 (-1074)
  else
    let e1 : Int := max (e + (bitLen m : Int) - 53) (-1074)
    if e1 ≤ e then
      if 971 < e1 then inf neg else fin neg (m * 2 ^ (e - e1).toNat) e1
    else
      let k : Nat := (e1 - e).toNat
      let q : Nat := m / 2 ^ k
      let r : Nat := m % 2 ^ k
      let half : Nat := 2 ^ (k - 1)
      let q1 : Nat := if half < r ∨ (r = half ∧ q % 2 = 1) then q + 1 else q
      let m2 : Nat := if q1 = 2 ^ 53 then 2 ^ 52 else q1
      let e2 : Int := if q1 = 2 ^ 53 then e1 + 1 else e1
      if 971 < e2 then inf neg else fin neg m2 e2

/-- Unary minus. -/
def neg : F64 → F64
  | nan => nan
  | inf s => inf (!s)
  | fin s m e => fin (!s) m e

/-- The operator `+` on two numbers: the exact sum, rounded once. An exact
zero sum is `+0`, except that `-0 + -0` is `-0`. -/
def add : F64 → F64 → F64
  | nan, _ => nan
  | _, nan => nan
  | inf s, inf t => if s = t then inf s else nan
  | inf s, fin _ _ _ => inf s
  | fin _ _ _, inf t => inf t
  | fin s1 m1 e1, fin s2 m2 e2 =>
    let e : Int := if m1 = 0 then e2 else if m2 = 0 then e1 else min e1 e2
    let a : Int := (if s1 then -1 else 1) * ((m1 * 2 ^ (e1 - e).toNat : Nat) : Int)
    let b : Int := (if s2 then -1 else 1) * ((m2 * 2 ^ (e2 - e).toNat : Nat) : Int)
    let t : Int := a + b
    if t = 0 then fin (s1 && s2) 0 (-1074) else round (decide (t < 0)) t.natAbs e

/-- The operator `-` on two numbers: `a - b` is `a + (-b)`. -/
def sub (a b : F64) : F64 := add a (neg b)

/-- The number written by an integer literal. -/
def ofNat (n : Nat) : F64 := round false n 0

/-- The double nearest to `(-1)^neg * n / d`. The quotient is taken with
enough binary digits, and a last digit recording whether anything is left, for
the rounding of `round` to be that of the exact value. -/
def ofRatio (neg : Bool) (n d : Nat) : F64 :=
  if d = 0 then nan
  else
    let p : Nat := min (56 + bitLen d) 1075
    let q : Nat := n * 2 ^ p / d
    let sticky : Nat := if n * 2 ^ p % d = 0 then 0 else 1
    round neg (2 * q + sticky) (-(p : Int) - 1)

def isFinite : F64 → Bool
  | fin _ _ _ => true
  | _ => false

instance (n : Nat) : OfNat F64 n := ⟨ofNat n⟩

instance : Add F64 := ⟨add⟩

instance : Sub F64 := ⟨sub⟩

instance : Neg F64 := ⟨neg⟩

end F64

/-! ### The component -/

/-- One record of the ledger: `{ id, date, amount, type, category }`. -/
structure Transaction where
  id : Nat
  date : String
  amount : F64
  type : String
  category : String
deriving DecidableEq

/-- The argument object of a `toast(...)` call. -/
structure Toast where
  title : String
  status : String
  duration : Nat
  isClosable : Bool
deriving DecidableEq

/-- The values read from the submitted form: `formData.get("date")`,
`parseFloat(formData.get("amount"))`, `formData.get("type")` and
`formData.get("category")`. -/
structure FormData where
  date : String
  amount : F64
  type : String
  category : String
deriving DecidableEq

/-- The state of the `Index` component: one field per `useState` hook, plus
the log of the toasts shown so far. -/
structure State where
  transactions : List Transaction
  editingTransaction : Option Transaction
  filterType : String
  filterCategory : String
  filterDateFrom : String
  filterDateTo : String
  toasts : List Toast
deriving DecidableEq

def initialCategories : List String :=
  ["Groceries", "Bills", "Salary", "Entertainment", "Misc"]

def initialTransactions : List Transaction :=
  [ { id := 1, date := "2023-04-01", amount := 200, type := "Income", category := "Salary" },
    { id := 2, date := "2023-04-02", amount := 50, type := "Expense", category := "Groceries" } ]

def transactionTypes : List String := ["Income", "Expense"]

/-- The state after the first render: the initial values of the hooks. -/
def initialState : State :=
  { transactions := initialTransactions
    editingTransaction := none
    filterType := ""
    filterCategory := ""
    filterDateFrom := ""
    filterDateTo := ""
    toasts := [] }

/-- The record built at the top of `handleFormSubmit`; `now` is the value of
`new Date().getTime()`. -/
def newTransaction (now : Nat) (form : FormData) (s : State) : Transaction :=
  { id := match s.editingTransaction with
          | some editing => editing.id
          | none => now
    date := form.date
    amount := form.amount
    type := form.type
    category := form.category }

/-- The handler `handleFormSubmit`, for both add and edit. -/
def handleFormSubmit (now : Nat) (form : FormData) (s : State) : State :=
  let newT := newTransaction now form s
  { s with
    transactions :=
      match s.editingTransaction with
      | some editing =>
          s.transactions.map fun transaction =>
            if transaction.id = editing.id then newT else transaction
      | none => s.transactions ++ [newT]
    editingTransaction := none
    toasts := s.toasts ++
      [{ title := if s.editingTransaction.isSome then "Transaction updated"
                  else "Transaction added"
         status := "success"
         duration := 2000
         isClosable := true }] }

/-- The handler `handleEditClick`. -/
def handleEditClick (transaction : Transaction) (s : State) : State :=
  { s with editingTransaction := some transaction }

/-- The `onClick` of the "Cancel Edit" button: `setEditingTransaction(null)`. -/
def cancelEdit (s : State) : State :=
  { s with editingTransaction := none }

/-- The handler `handleDeleteClick`. -/
def handleDeleteClick (transactionId : Nat) (s : State) : State :=
  { s with
    transactions := s.transactions.filter fun transaction => transaction.id ≠ transactionId
    toasts := s.toasts ++
      [{ title := "Transaction deleted"
         status := "error"
         duration := 2000
         isClosable := true }] }

/-- The function `calculateTotalBalance`: a left-to-right `reduce` from `0`. -/
def calculateTotalBalance (s : State) : F64 :=
  s.transactions.foldl
    (fun acc transaction =>
      if transaction.type = "Income" then acc + transaction.amount
      else acc - transaction.amount)
    0

/-- The comparison `a >= b` of two `Date` objects through their time values:
false as soon as one of them is invalid. -/
def dateGe (a b : Option Int) : Bool :=
  match a, b with
  | some x, some y => decide (y ≤ x)
  | _, _ => false

/-- The comparison `a <= b` of two `Date` objects through their time values:
false as soon as one of them is invalid. -/
def dateLe (a b : Option Int) : Bool :=
  match a, b with
  | some x, some y => decide (x ≤ y)
  | _, _ => false

/-- The function `getFilteredTransactions`. A string is truthy when it is not
empty. -/
def getFilteredTransactions (dateValue : String → Option Int) (s : State) :
    List Transaction :=
  s.transactions.filter fun transaction =>
    let matchType :=
      if s.filterType ≠ "" then decide (transaction.type = s.filterType) else true
    let matchCategory :=
      if s.filterCategory ≠ "" then decide (transaction.category = s.filterCategory) else true
    let matchDateFrom :=
      if s.filterDateFrom ≠ "" then
        dateGe (dateValue transaction.date) (dateValue s.filterDateFrom)
      else true
    let matchDateTo :=
      if s.filterDateTo ≠ "" then
        dateLe (dateValue transaction.date) (dateValue s.filterDateTo)
      else true
    matchType && matchCategory && matchDateFrom && matchDateTo

/-- The handler `handleFilterChange`, once per filter setter. -/
def setFilterType (v : String) (s : State) : State := { s with filterType := v }

def setFilterCategory (v : String) (s : State) : State := { s with filterCategory := v }

def setFilterDateFrom (v : String) (s : State) : State := { s with filterDateFrom := v }

def setFilterDateTo (v : String) (s : State) : State := { s with filterDateTo := v }

/-- The value of a decimal digit, `none` for any other character. -/
def digitValue (c : Char) : Option Nat :=
  if 48 ≤ c.toNat ∧ c.toNat ≤ 57 then some (c.toNat - 48) else none

/-- The number written by a list of decimal digits, most significant first. -/
def digitsValue : List Char → Option Nat
  | [] => some 0
  | c :: cs =>
    match digitValue c, digitsValue cs with
    | some d, some n => some (d * 10 ^ cs.length + n)
    | _, _ => none

def isLeapYear (y : Nat) : Bool :=
  (y % 4 == 0 && y % 100 != 0) || y % 400 == 0

def daysInMonth (y m : Nat) : Nat :=
  if m = 2 then (if isLeapYear y then 29 else 28)
  else if m = 4 ∨ m = 6 ∨ m = 9 ∨ m = 11 then 30
  else 31

/-- The number of days from 1970-01-01 to the given civil date of the
proleptic Gregorian calendar. -/
def daysFromCivil (y m d : Nat) : Int :=
  let y1 : Int := if m ≤ 2 then (y : Int) - 1 else y
  let era : Int := y1 / 400
  let yoe : Int := y1 - era * 400
  let mp : Int := if m ≤ 2 then (m : Int) + 9 else (m : Int) - 3
  let doy : Int := (153 * mp + 2) / 5 + (d : Int) - 1
  let doe : Int := yoe * 365 + yoe / 4 - yoe / 100 + doy
  era * 146097 + doe - 719468

/-- A stand-in for `dateValue` at concrete inputs, not the parser of the
runtime: the time value, in milliseconds since the epoch, of a calendar date
written `YYYY-MM-DD` with a four-digit year (read as midnight UTC), which is
what a date control holds, and `none` for every other string, the empty
string included. Outside that format the runtime falls back on parsing of its
own, which this function does not follow; the theorems quantify over
`dateValue` and use this function only to instantiate it. -/
def isoDateValue (str : String) : Option Int :=
  match str.toList with
  | [y1, y2, y3, y4, '-', m1, m2, '-', d1, d2] =>
    match digitsValue [y1, y2, y3, y4], digitsValue [m1, m2], digitsValue [d1, d2] with
    | some y, some m, some d =>
      if 1 ≤ m ∧ m ≤ 12 ∧ 1 ≤ d ∧ d ≤ daysInMonth y m then
        some (daysFromCivil y m d * 86400000)
      else none
    | _, _, _ => none
  | _ => none

/-- The digits at the head of a list of characters. -/
def leadingDigits (cs : List Char) : List Char :=
  cs.takeWhile fun c => (digitValue c).isSome

/-- What follows the digits at the head of a list of characters. -/
def afterDigits (cs : List Char) : List Char :=
  cs.dropWhile fun c => (digitValue c).isSome

/-- The white space `parseFloat` skips at the head of its argument. -/
def isStrWhiteSpace (c : Char) : Bool :=
  c.toNat = 32 || (9 ≤ c.toNat && c.toNat ≤ 13) || c.toNat = 160 || c.toNat = 5760
    || (8192 ≤ c.toNat && c.toNat ≤ 8202) || c.toNat = 8232 || c.toNat = 8233
    || c.toNat = 8239 || c.toNat = 8287 || c.toNat = 12288 || c.toNat = 65279

/-- The decimal exponent written at the head of a list of characters, `0` when
there is none. -/
def exponentPart (cs : List Char) : Int :=
  match cs with
  | c :: rest =>
    if c = 'e' ∨ c = 'E' then
      match rest with
      | '-' :: ds => -(((digitsValue (leadingDigits ds)).getD 0 : Nat) : Int)
      | '+' :: ds => (((digitsValue (leadingDigits ds)).getD 0 : Nat) : Int)
      | ds => (((digitsValue (leadingDigits ds)).getD 0 : Nat) : Int)
    else 0
  | [] => 0

/-- A stand-in for `parseFloat` at concrete inputs: the number written by the
longest decimal literal at the head of the string (sign, digits, fraction,
exponent, or `Infinity`), and `NaN` when there is none. The theorems quantify
over `parseFloat` and use this function only to instantiate it. -/
def parseDecimal (str : String) : F64 :=
  let cs := str.toList.dropWhile isStrWhiteSpace
  let neg : Bool := cs.head? = some '-'
  let body : List Char := if cs.head? = some '-' ∨ cs.head? = some '+' then cs.tail else cs
  if body.take 8 = "Infinity".toList then F64.inf neg
  else
    let ip := leadingDigits body
    let r1 := afterDigits body
    let fp := if r1.head? = some '.' then leadingDigits r1.tail else []
    let r2 := if r1.head? = some '.' then afterDigits r1.tail else r1
    if ip = [] ∧ fp = [] then F64.nan
    else
      let m : Nat := (digitsValue (ip ++ fp)).getD 0
      let e10 : Int := exponentPart r2 - (fp.length : Int)
      if 0 ≤ e10 then F64.ofRatio neg (m * 10 ^ e10.toNat) 1
      else F64.ofRatio neg m (10 ^ (-e10).toNat)

/-- The values the four named controls of the form hold when the submit button
is clicked: what `formData.get` returns for `date`, `amount`, `type` and
`category`. -/
structure FormValues where
  date : String
  amount : String
  type : String
  category : String
deriving DecidableEq

/-- The four controls of the form are marked `isRequired`: the form validates
only if none of them is empty. -/
def requiredFieldsPresent (v : FormValues) : Bool :=
  v.date ≠ "" && v.amount ≠ "" && v.type ≠ "" && v.category ≠ ""

/-- What `handleFormSubmit` reads from the form: the four values, the amount
through `parseFloat`. -/
def readForm (parseFloat : String → F64) (v : FormValues) : FormData :=
  { date := v.date
    amount := parseFloat v.amount
    type := v.type
    category := v.category }

/-- A click on the submit button of `<Box as="form" onSubmit={handleFormSubmit}>`:
the form runs the handler only when its controls validate, and otherwise
nothing happens to the state. `controlsAccept` stands for the constraints the
controls declare besides `isRequired` (`type="date"`, `type="number"`,
`step="0.01"`), which are checked by the browser and not modelled here. -/
def submitForm (controlsAccept : FormValues → Bool) (parseFloat : String → F64)
    (now : Nat) (v : FormValues) (s : State) : State :=
  if requiredFieldsPresent v && controlsAccept v then
    handleFormSubmit now (readForm parseFloat v) s
  else s

/-- A stand-in for `controlsAccept` at concrete inputs: the date control holds
a calendar date and the amount control a finite number. The `step` of the
amount control is left out. -/
def typedControlsAccept (v : FormValues) : Bool :=
  (isoDateValue v.date).isSome && (parseDecimal v.amount).isFinite

/-- A run of add operations: form submissions made one after the other, each
with the clock reading of its moment. -/
def addAll : List (Nat × FormData) → State → State
  | [], s => s
  | (now, form) :: rest, s => addAll rest (handleFormSubmit now form s)

/-- The user actions on the ledger and on the edit cursor. -/
inductive Action where
  | editClick (transaction : Transaction)
  | cancel
  | submit (now : Nat) (form : FormData)
  | delete (transactionId : Nat)
deriving DecidableEq

/-- An action is offered by the rendered page: the Edit and Delete buttons
belong to the rows of the table, which are records of the current ledger (all
of them while the filters are unset), and the Cancel button is rendered only
while a record is being edited. -/
def Action.enabled (s : State) : Action → Bool
  | .editClick transaction => decide (transaction ∈ s.transactions)
  | .cancel => s.editingTransaction.isSome
  | .submit _ _ => true
  | .delete transactionId => s.transactions.any fun t => t.id = transactionId

/-- The handler an action runs. -/
def Action.step (s : State) : Action → State
  | .editClick transaction => handleEditClick transaction s
  | .cancel => cancelEdit s
  | .submit now form => handleFormSubmit now form s
  | .delete transactionId => handleDeleteClick transactionId s

/-- The state after a sequence of actions, `none` when one of them is not
offered in the state it is taken in. -/
def run : List Action → State → Option State
  | [], s => some s
  | a :: rest, s => if a.enabled s then run rest (a.step s) else none

/-- A state the page can be in: the result of some sequence of actions taken
from the initial state. -/
def Reachable (s : State) : Prop :=
  ∃ actions, run actions initialState = some s

/-- The edit cursor is unset or is a record of the current ledger. -/
def CursorInLedger (s : State) : Prop :=
  ∀ c, s.editingTransaction = some c → c ∈ s.transactions

/-- No two records of the ledger share an id. -/
def UniqueIds (l : List Transaction) : Prop :=
  (l.map fun t => t.id).Nodup

instance (l : List Transaction) : Decidable (UniqueIds l) := by
  unfold UniqueIds; infer_instance

/-- The state after clicking Edit on the second initial record and then
Delete on the same row. -/
def editThenDeleteState : State :=
  handleDeleteClick 2
    (handleEditClick ⟨2, "2023-04-02", 50, "Expense", "Groceries"⟩ initialState)

/-! ### The properties, in the words of the specification -/

/-- Date `d` is chronologically on or after date `bound`: both strings denote
an instant and the instant of `d` is not earlier than that of `bound`. -/
def onOrAfter (dateValue : String → Option Int) (d bound : String) : Prop :=
  ∃ x y, dateValue d = some x ∧ dateValue bound = some y ∧ y ≤ x

/-- Date `d` is chronologically on or before date `bound`. -/
def onOrBefore (dateValue : String → Option Int) (d bound : String) : Prop :=
  ∃ x y, dateValue d = some x ∧ dateValue bound = some y ∧ x ≤ y

/-- The signed amount of a record as the specification words it: `+amount`
for an Income, `-amount` for an Expense. -/
def signedAmount (t : Transaction) : F64 :=
  if t.type = "Income" then t.amount
  else if t.type = "Expense" then -t.amount
  else 0

/-- The sum of the signed amounts, accumulated from zero in ledger order, each
addition rounded as `+` rounds. -/
def signedSum (l : List Transaction) : F64 :=
  l.foldl (fun acc t => acc + signedAmount t) 0

/-- Every record of the ledger has one of the two types of `transactionTypes`. -/
def WellTyped (l : List Transaction) : Prop :=
  ∀ t ∈ l, t.type ∈ transactionTypes

instance (l : List Transaction) : Decidable (WellTyped l) := by
  unfold WellTyped; infer_instance

/-! ### Helper lemmas -/

theorem dateGe_iff (dateValue : String → Option Int) (d bound : String) :
    dateGe (dateValue d) (dateValue bound) = true ↔ onOrAfter dateValue d bound := by
  unfold dateGe onOrAfter
  cases hd : dateValue d <;> cases hb : dateValue bound <;> simp

theorem dateLe_iff (dateValue : String → Option Int) (d bound : String) :
    dateLe (dateValue d) (dateValue bound) = true ↔ onOrBefore dateValue d bound := by
  unfold dateLe onOrBefore
  cases hd : dateValue d <;> cases hb : dateValue bound <;> simp

theorem foldl_balance_eq (l : List Transaction) (h : WellTyped l) (a : F64) :
    l.foldl (fun acc t => if t.type = "Income" then acc + t.amount else acc - t.amount) a
      = l.foldl (fun acc t => acc + signedAmount t) a := by
  induction l generalizing a with
  | nil => rfl
  | cons t ts ih =>
    have ht : t.type ∈ transactionTypes := h t (List.mem_cons_self _ _)
    have hts : WellTyped ts := fun u hu => h u (List.mem_cons_of_mem _ hu)
    simp only [List.foldl_cons]
    rw [ih hts]
    congr 1
    simp only [transactionTypes, List.mem_cons, List.mem_singleton, List.not_mem_nil,
      or_false] at ht
    rcases ht with ht | ht
    · simp [signedAmount, ht]
    · simp only [signedAmount, ht]
      rfl

/-! ### The filter engine -/

/-- C1: a record of the ledger is in the result of `getFilteredTransactions`
if and only if the type filter is unset or equals its type, the category
filter is unset or equals its category, the lower date bound is unset or its
date is on or after the bound, and the upper date bound is unset or its date
is on or before the bound. -/
theorem getFilteredTransactions_mem_iff (dateValue : String → Option Int) (s : State)
    (r : Transaction) (hr : r ∈ s.transactions) :
    r ∈ getFilteredTransactions dateValue s ↔
      (s.filterType = "" ∨ r.type = s.filterType) ∧
      (s.filterCategory = "" ∨ r.category = s.filterCategory) ∧
      (s.filterDateFrom = "" ∨ onOrAfter dateValue r.date s.filterDateFrom) ∧
      (s.filterDateTo = "" ∨ onOrBefore dateValue r.date s.filterDateTo) := by
  unfold getFilteredTransactions
  rw [List.mem_filter]
  simp only [hr, true_and, Bool.and_eq_true, and_assoc]
  refine and_congr ?_ (and_congr ?_ (and_congr ?_ ?_))
  · by_cases h : s.filterType = "" <;> simp [h]
  · by_cases h : s.filterCategory = "" <;> simp [h]
  · by_cases h : s.filterDateFrom = "" <;> simp [h, dateGe_iff]
  · by_cases h : s.filterDateTo = "" <;> simp [h, dateLe_iff]

/-- C1, at a concrete input: with the lower date bound `2023-04-02` the second
initial record is kept. -/
theorem getFilteredTransactions_mem_iff_witness :
    (⟨2, "2023-04-02", 50, "Expense", "Groceries"⟩ : Transaction) ∈
        (setFilterDateFrom "2023-04-02" initialState).transactions ∧
      ((⟨2, "2023-04-02", 50, "Expense", "Groceries"⟩ : Transaction) ∈
          getFilteredTransactions isoDateValue (setFilterDateFrom "2023-04-02" initialState) ↔
        ((setFilterDateFrom "2023-04-02" initialState).filterType = "" ∨
          "Expense" = (setFilterDateFrom "2023-04-02" initialState).filterType) ∧
        ((setFilterDateFrom "2023-04-02" initialState).filterCategory = "" ∨
          "Groceries" = (setFilterDateFrom "2023-04-02" initialState).filterCategory) ∧
        ((setFilterDateFrom "2023-04-02" initialState).filterDateFrom = "" ∨
          onOrAfter isoDateValue "2023-04-02"
            (setFilterDateFrom "2023-04-02" initialState).filterDateFrom) ∧
        ((setFilterDateFrom "2023-04-02" initialState).filterDateTo = "" ∨
          onOrBefore isoDateValue "2023-04-02"
            (setFilterDateFrom "2023-04-02" initialState).filterDateTo)) :=
  ⟨by decide,
    getFilteredTransactions_mem_iff isoDateValue (setFilterDateFrom "2023-04-02" initialState)
      ⟨2, "2023-04-02", 50, "Expense", "Groceries"⟩ (by decide)⟩

/-- C7: the result of `getFilteredTransactions` is a subsequence of the ledger,
in ledger order, and with the four filters unset it is the whole ledger. -/
theorem getFilteredTransactions_sublist (dateValue : String → Option Int) (s : State) :
    (getFilteredTransactions dateValue s).Sublist s.transactions ∧
      (s.filterType = "" → s.filterCategory = "" → s.filterDateFrom = "" →
        s.filterDateTo = "" → getFilteredTransactions dateValue s = s.transactions) := by
  refine ⟨List.filter_sublist _, ?_⟩
  intro h1 h2 h3 h4
  unfold getFilteredTransactions
  rw [List.filter_eq_self]
  intro t _
  simp [h1, h2, h3, h4]

/-- C7, at a concrete input: the initial state has the four filters unset. -/
theorem getFilteredTransactions_sublist_witness :
    (initialState.filterType = "" ∧ initialState.filterCategory = "" ∧
      initialState.filterDateFrom = "" ∧ initialState.filterDateTo = "") ∧
    (getFilteredTransactions isoDateValue initialState).Sublist initialState.transactions ∧
    getFilteredTransactions isoDateValue initialState = initialState.transactions :=
  ⟨by decide, (getFilteredTransactions_sublist isoDateValue initialState).1,
    (getFilteredTransactions_sublist isoDateValue initialState).2 rfl rfl rfl rfl⟩

/-! ### The balance calculator -/

set_option maxRecDepth 20000 in
/-- The fold on doubles is exact where the values allow it and rounds where
they do not: `0.1 + 0.2` accumulates to `0.30000000000000004`, the double
above `0.3`; adding `1` to `2^53` leaves `2^53`; and the result depends on the
order of the records, `1e16, 1, 1` giving `1e16` and `1, 1, 1e16` giving
`1e16 + 2`. -/
theorem calculateTotalBalance_rounds_each_step :
    calculateTotalBalance
        { initialState with
          transactions :=
            [⟨1, "2023-04-01", parseDecimal "0.1", "Income", "Misc"⟩,
              ⟨2, "2023-04-02", parseDecimal "0.2", "Income", "Misc"⟩] } =
        F64.fin false 5404319552844596 (-54) ∧
      parseDecimal "0.3" = F64.fin false 5404319552844595 (-54) ∧
      calculateTotalBalance
        { initialState with
          transactions :=
            [⟨1, "2023-04-01", 9007199254740992, "Income", "Misc"⟩,
              ⟨2, "2023-04-02", 1, "Income", "Misc"⟩] } = 9007199254740992 ∧
      calculateTotalBalance
        { initialState with
          transactions :=
            [⟨1, "2023-04-01", 10000000000000000, "Income", "Misc"⟩,
              ⟨2, "2023-04-02", 1, "Income", "Misc"⟩,
              ⟨3, "2023-04-03", 1, "Income", "Misc"⟩] } = 10000000000000000 ∧
      calculateTotalBalance
        { initialState with
          transactions :=
            [⟨2, "2023-04-02", 1, "Income", "Misc"⟩,
              ⟨3, "2023-04-03", 1, "Income", "Misc"⟩,
              ⟨1, "2023-04-01", 10000000000000000, "Income", "Misc"⟩] } =
        10000000000000002 := by
  refine ⟨by decide, by decide, by decide, by decide, by decide⟩

/-- C2: on a ledger of Income and Expense records `calculateTotalBalance` is
the sum, accumulated from zero in ledger order, of `+amount` for an Income and
`-amount` for an Expense, every addition being that of the operator `+`; on
every ledger it is that sum with `-amount` for each record that is not an
Income; it reads the ledger only, so two states with the same ledger have the
same balance whatever their filters; on the two initial records it is `150`. -/
theorem calculateTotalBalance_eq (s : State) (h : WellTyped s.transactions) :
    calculateTotalBalance s = signedSum s.transactions ∧
      calculateTotalBalance s =
        s.transactions.foldl
          (fun acc t => acc + (if t.type = "Income" then t.amount else -t.amount)) 0 ∧
      (∀ s2 : State, s2.transactions = s.transactions →
        calculateTotalBalance s2 = calculateTotalBalance s) ∧
      calculateTotalBalance initialState = 150 := by
  refine ⟨foldl_balance_eq s.transactions h 0, ?_, ?_, by decide⟩
  · have hf :
        (fun (acc : F64) (t : Transaction) =>
            if t.type = "Income" then acc + t.amount else acc - t.amount) =
          fun acc t => acc + (if t.type = "Income" then t.amount else -t.amount) := by
      funext acc t
      split <;> rfl
    unfold calculateTotalBalance
    rw [hf]
  · intro s2 h2
    simp only [calculateTotalBalance, h2]

/-- C2, at a concrete input: the initial ledger. -/
theorem calculateTotalBalance_eq_witness :
    WellTyped initialState.transactions ∧
      calculateTotalBalance initialState = signedSum initialState.transactions ∧
      calculateTotalBalance initialState =
        initialState.transactions.foldl
          (fun acc t => acc + (if t.type = "Income" then t.amount else -t.amount)) 0 ∧
      (∀ s2 : State, s2.transactions = initialState.transactions →
        calculateTotalBalance s2 = calculateTotalBalance initialState) ∧
      calculateTotalBalance initialState = 150 :=
  ⟨by decide, calculateTotalBalance_eq initialState (by decide)⟩

/-! ### The ledger store -/

theorem index_eq_of_id_eq (l : List Transaction) (hnd : UniqueIds l) (i j : Nat)
    (hi : i < l.length) (hj : j < l.length) (h : l[i].id = l[j].id) : i = j := by
  have hi2 : i < (l.map fun t => t.id).length := by simpa using hi
  have hj2 : j < (l.map fun t => t.id).length := by simpa using hj
  have hget : (l.map fun t => t.id)[i] = (l.map fun t => t.id)[j] := by simpa using h
  exact (@List.Nodup.getElem_inj_iff _ _ hnd i hi2 j hj2).1 hget

theorem filter_id_ne_eq_erase (l : List Transaction) (hnd : UniqueIds l) (t : Transaction)
    (ht : t ∈ l) : l.filter (fun u => u.id ≠ t.id) = l.erase t := by
  induction l with
  | nil => simp at ht
  | cons u us ih =>
    have hnd2 : (u.id ∉ us.map fun t => t.id) ∧ UniqueIds us := by
      simpa [UniqueIds] using hnd
    by_cases hut : u = t
    · subst hut
      have : us.filter (fun v => v.id ≠ u.id) = us := by
        rw [List.filter_eq_self]
        intro v hv
        have : v.id ≠ u.id := fun e => hnd2.1 (e ▸ List.mem_map_of_mem _ hv)
        simpa using this
      rw [List.filter_cons_of_neg (by simp), this, List.erase_cons_head]
    · have htus : t ∈ us := by
        rcases List.mem_cons.1 ht with e | e
        · exact absurd e.symm hut
        · exact e
      have hne : u.id ≠ t.id := fun e => hnd2.1 (e ▸ List.mem_map_of_mem _ htus)
      rw [List.filter_cons_of_pos (by simpa using hne), ih hnd2.2 htus,
        List.erase_cons_tail (by simpa using hut)]

theorem handleFormSubmit_transactions_of_none (now : Nat) (form : FormData) (s : State)
    (h : s.editingTransaction = none) :
    (handleFormSubmit now form s).transactions =
      s.transactions ++ [⟨now, form.date, form.amount, form.type, form.category⟩] := by
  simp [handleFormSubmit, newTransaction, h]

theorem handleFormSubmit_transactions_of_some (now : Nat) (form : FormData) (s : State)
    (c : Transaction) (h : s.editingTransaction = some c) :
    (handleFormSubmit now form s).transactions =
      s.transactions.map fun t =>
        if t.id = c.id then ⟨c.id, form.date, form.amount, form.type, form.category⟩ else t := by
  simp [handleFormSubmit, newTransaction, h]

theorem handleFormSubmit_editingTransaction (now : Nat) (form : FormData) (s : State) :
    (handleFormSubmit now form s).editingTransaction = none := rfl

theorem addAll_ids (subs : List (Nat × FormData)) (s : State)
    (h : s.editingTransaction = none) :
    ((addAll subs s).transactions.map fun t => t.id) =
      (s.transactions.map fun t => t.id) ++ subs.map Prod.fst := by
  induction subs generalizing s with
  | nil => simp [addAll]
  | cons p rest ih =>
    obtain ⟨now, form⟩ := p
    rw [addAll, ih _ (handleFormSubmit_editingTransaction now form s),
      handleFormSubmit_transactions_of_none now form s h]
    simp

/-- C3: on a ledger with pairwise distinct ids, submitting the form while the
edit cursor carries the id of the record at index `i` keeps the length of the
ledger, puts at index `i` a record with the same id and the submitted date,
amount, type and category, and leaves the record at every other index as it
was. -/
theorem handleFormSubmit_update (now : Nat) (form : FormData) (s : State) (c : Transaction)
    (i : Nat) (hnd : UniqueIds s.transactions) (hc : s.editingTransaction = some c)
    (hi : i < s.transactions.length) (hid : c.id = s.transactions[i].id) :
    (handleFormSubmit now form s).transactions.length = s.transactions.length ∧
      (handleFormSubmit now form s).transactions[i]? =
        some ⟨s.transactions[i].id, form.date, form.amount, form.type, form.category⟩ ∧
      ∀ j, j ≠ i →
        (handleFormSubmit now form s).transactions[j]? = s.transactions[j]? := by
  rw [handleFormSubmit_transactions_of_some now form s c hc]
  refine ⟨by simp, ?_, ?_⟩
  · rw [List.getElem?_map, List.getElem?_eq_getElem hi]
    simp [hid]
  · intro j hj
    rw [List.getElem?_map]
    by_cases hjl : j < s.transactions.length
    · rw [List.getElem?_eq_getElem hjl]
      have hne : s.transactions[j].id ≠ c.id := by
        intro e
        exact hj (index_eq_of_id_eq s.transactions hnd j i hjl hi (e.trans hid))
      simp [hne]
    · rw [List.getElem?_eq_none (by omega)]
      rfl

/-- C3, at a concrete input: editing the first initial record. -/
theorem handleFormSubmit_update_witness :
    UniqueIds initialState.transactions ∧
      (handleEditClick ⟨1, "2023-04-01", 200, "Income", "Salary"⟩ initialState).editingTransaction
        = some ⟨1, "2023-04-01", 200, "Income", "Salary"⟩ ∧
      (handleFormSubmit 1700000000000 ⟨"2023-04-01", 300, "Income", "Salary"⟩
          (handleEditClick ⟨1, "2023-04-01", 200, "Income", "Salary"⟩
            initialState)).transactions =
        [⟨1, "2023-04-01", 300, "Income", "Salary"⟩,
          ⟨2, "2023-04-02", 50, "Expense", "Groceries"⟩] ∧
      ((handleFormSubmit 1700000000000 ⟨"2023-04-01", 300, "Income", "Salary"⟩
          (handleEditClick ⟨1, "2023-04-01", 200, "Income", "Salary"⟩
            initialState)).transactions.length = 2 ∧
        (handleFormSubmit 1700000000000 ⟨"2023-04-01", 300, "Income", "Salary"⟩
          (handleEditClick ⟨1, "2023-04-01", 200, "Income", "Salary"⟩
            initialState)).transactions[0]? =
          some ⟨1, "2023-04-01", 300, "Income", "Salary"⟩ ∧
        ∀ j, j ≠ 0 →
          (handleFormSubmit 1700000000000 ⟨"2023-04-01", 300, "Income", "Salary"⟩
            (handleEditClick ⟨1, "2023-04-01", 200, "Income", "Salary"⟩
              initialState)).transactions[j]? = initialState.transactions[j]?) :=
  ⟨by decide, rfl, by decide,
    handleFormSubmit_update 1700000000000 ⟨"2023-04-01", 300, "Income", "Salary"⟩
      (handleEditClick ⟨1, "2023-04-01", 200, "Income", "Salary"⟩ initialState)
      ⟨1, "2023-04-01", 200, "Income", "Salary"⟩ 0 (by decide) rfl (by decide) rfl⟩

/-- C4: on a ledger with pairwise distinct ids, `handleDeleteClick` with the id
of a record of the ledger yields the ledger with that one record removed, one
shorter and with the other records in their order; with an id that no record
has it yields the ledger unchanged. -/
theorem handleDeleteClick_ledger (transactionId : Nat) (s : State)
    (hnd : UniqueIds s.transactions) :
    (∀ t ∈ s.transactions, t.id = transactionId →
      (handleDeleteClick transactionId s).transactions = s.transactions.erase t ∧
      (handleDeleteClick transactionId s).transactions.length + 1 = s.transactions.length ∧
      (handleDeleteClick transactionId s).transactions.Sublist s.transactions ∧
      ∀ u, u ∈ (handleDeleteClick transactionId s).transactions ↔
        u ∈ s.transactions ∧ u ≠ t) ∧
    ((∀ t ∈ s.transactions, t.id ≠ transactionId) →
      (handleDeleteClick transactionId s).transactions = s.transactions) := by
  constructor
  · intro t ht hid
    subst hid
    have he : (handleDeleteClick t.id s).transactions = s.transactions.erase t :=
      filter_id_ne_eq_erase s.transactions hnd t ht
    refine ⟨he, ?_, ?_, ?_⟩
    · rw [he, List.length_erase_of_mem ht]
      have : 0 < s.transactions.length := List.length_pos_of_mem ht
      omega
    · rw [he]
      exact List.erase_sublist t s.transactions
    · intro u
      simp only [handleDeleteClick, List.mem_filter, decide_eq_true_eq]
      constructor
      · rintro ⟨hu, hne⟩
        exact ⟨hu, fun e => hne (e ▸ rfl)⟩
      · rintro ⟨hu, hne⟩
        refine ⟨hu, fun e => hne ?_⟩
        obtain ⟨a, ha, hau⟩ := List.getElem_of_mem hu
        obtain ⟨b, hb, hbt⟩ := List.getElem_of_mem ht
        have hab : a = b :=
          index_eq_of_id_eq s.transactions hnd a b ha hb (by rw [hau, hbt]; exact e)
        subst hab
        exact hau.symm.trans hbt
  · intro h
    simp only [handleDeleteClick]
    rw [List.filter_eq_self]
    intro t ht
    simpa using h t ht

/-- C4, at a concrete input: deleting the second initial record, and deleting
an id that no record has. -/
theorem handleDeleteClick_ledger_witness :
    UniqueIds initialState.transactions ∧
      (handleDeleteClick 2 initialState).transactions =
        [⟨1, "2023-04-01", 200, "Income", "Salary"⟩] ∧
      (handleDeleteClick 2 initialState).transactions.length + 1 =
        initialState.transactions.length ∧
      (handleDeleteClick 7 initialState).transactions = initialState.transactions :=
  ⟨by decide,
    ((handleDeleteClick_ledger 2 initialState (by decide)).1
      ⟨2, "2023-04-02", 50, "Expense", "Groceries"⟩ (by decide) rfl).1.trans (by decide),
    ((handleDeleteClick_ledger 2 initialState (by decide)).1
      ⟨2, "2023-04-02", 50, "Expense", "Groceries"⟩ (by decide) rfl).2.1,
    (handleDeleteClick_ledger 7 initialState (by decide)).2 (by decide)⟩

/-- C5: a form submission made with no edit cursor set yields the old ledger
followed by one new record: the length grows by one, every earlier record is
unchanged at its index, and the new record, at the end, carries the submitted
date, amount, type and category (its id is the clock reading). -/
theorem handleFormSubmit_add (now : Nat) (form : FormData) (s : State)
    (h : s.editingTransaction = none) :
    (handleFormSubmit now form s).transactions =
        s.transactions ++ [⟨now, form.date, form.amount, form.type, form.category⟩] ∧
      (handleFormSubmit now form s).transactions.length = s.transactions.length + 1 ∧
      (∀ i, i < s.transactions.length →
        (handleFormSubmit now form s).transactions[i]? = s.transactions[i]?) ∧
      (handleFormSubmit now form s).transactions[s.transactions.length]? =
        some ⟨now, form.date, form.amount, form.type, form.category⟩ := by
  rw [handleFormSubmit_transactions_of_none now form s h]
  refine ⟨rfl, by simp, ?_, by simp⟩
  intro i hi
  exact List.getElem?_append_left hi

/-- C5, at a concrete input: adding a record to the initial ledger. -/
theorem handleFormSubmit_add_witness :
    initialState.editingTransaction = none ∧
      (handleFormSubmit 1700000000000 ⟨"2023-04-03", 10, "Income", "Misc"⟩
          initialState).transactions =
        [⟨1, "2023-04-01", 200, "Income", "Salary"⟩,
          ⟨2, "2023-04-02", 50, "Expense", "Groceries"⟩,
          ⟨1700000000000, "2023-04-03", 10, "Income", "Misc"⟩] ∧
      (handleFormSubmit 1700000000000 ⟨"2023-04-03", 10, "Income", "Misc"⟩
          initialState).transactions.length = initialState.transactions.length + 1 :=
  ⟨rfl,
    (handleFormSubmit_add 1700000000000 ⟨"2023-04-03", 10, "Income", "Misc"⟩
      initialState rfl).1.trans (by decide),
    (handleFormSubmit_add 1700000000000 ⟨"2023-04-03", 10, "Income", "Misc"⟩
      initialState rfl).2.1⟩

/-! ### Identifiers taken from the clock -/

/-- C6, as stated, fails: two add operations made at the same clock reading
give two records with the same id. -/
theorem addAll_same_reading_shares_id :
    ¬ UniqueIds
      (addAll
        [(1700000000000, ⟨"2023-04-03", 10, "Income", "Misc"⟩),
          (1700000000000, ⟨"2023-04-03", 25, "Expense", "Bills"⟩)]
        initialState).transactions := by
  decide

/-- C6, amended: starting from the initial ledger, after any sequence of add
operations whose clock readings are pairwise distinct and none of which is `1`
or `2`, the ids of the ledger are `1`, `2` and the readings in order, and no
two records share an id. -/
theorem addAll_uniqueIds (subs : List (Nat × FormData))
    (hnd : (subs.map Prod.fst).Nodup) (h1 : 1 ∉ subs.map Prod.fst)
    (h2 : 2 ∉ subs.map Prod.fst) :
    ((addAll subs initialState).transactions.map fun t => t.id) =
        [1, 2] ++ subs.map Prod.fst ∧
      UniqueIds (addAll subs initialState).transactions := by
  have hids := addAll_ids subs initialState rfl
  have hinit : (initialState.transactions.map fun t => t.id) = [1, 2] := rfl
  rw [hinit] at hids
  refine ⟨hids, ?_⟩
  unfold UniqueIds
  rw [hids]
  refine List.Nodup.append (by decide) hnd ?_
  intro a ha hb
  simp only [List.mem_cons, List.mem_singleton, List.not_mem_nil, or_false] at ha
  rcases ha with rfl | rfl
  · exact h1 hb
  · exact h2 hb

/-- C6 amended, at a concrete input: two adds at successive clock readings. -/
theorem addAll_uniqueIds_witness :
    ([1700000000000, 1700000000001] : List Nat).Nodup ∧
      ((addAll
          [(1700000000000, ⟨"2023-04-03", 10, "Income", "Misc"⟩),
            (1700000000001, ⟨"2023-04-03", 25, "Expense", "Bills"⟩)]
          initialState).transactions.map fun t => t.id) =
        [1, 2, 1700000000000, 1700000000001] ∧
      UniqueIds
        (addAll
          [(1700000000000, ⟨"2023-04-03", 10, "Income", "Misc"⟩),
            (1700000000001, ⟨"2023-04-03", 25, "Expense", "Bills"⟩)]
          initialState).transactions :=
  ⟨by decide,
    addAll_uniqueIds
      [(1700000000000, ⟨"2023-04-03", 10, "Income", "Misc"⟩),
        (1700000000001, ⟨"2023-04-03", 25, "Expense", "Bills"⟩)]
      (by decide) (by decide) (by decide)⟩

/-! ### Submissions the specification wants refused -/

/-- C8, as stated, fails: after Edit and then Delete on the second initial
record the cursor carries an id that no record has, and a submission is then
reported as a success, "Transaction updated". -/
theorem stale_cursor_submit_reports_success :
    editThenDeleteState.editingTransaction =
        some ⟨2, "2023-04-02", 50, "Expense", "Groceries"⟩ ∧
      (∀ t ∈ editThenDeleteState.transactions, t.id ≠ 2) ∧
      (handleFormSubmit 1700000000000 ⟨"2023-04-02", 75, "Expense", "Groceries"⟩
          editThenDeleteState).toasts.getLast? =
        some ⟨"Transaction updated", "success", 2000, true⟩ := by
  refine ⟨rfl, by decide, by decide⟩

/-- C8, amended: when the edit cursor carries an id that no record of the
ledger has, submitting the form leaves the ledger unchanged and clears the
cursor. -/
theorem handleFormSubmit_stale_cursor (now : Nat) (form : FormData) (s : State)
    (c : Transaction) (hc : s.editingTransaction = some c)
    (habs : ∀ t ∈ s.transactions, t.id ≠ c.id) :
    (handleFormSubmit now form s).transactions = s.transactions ∧
      (handleFormSubmit now form s).editingTransaction = none := by
  refine ⟨?_, rfl⟩
  rw [handleFormSubmit_transactions_of_some now form s c hc]
  conv_rhs => rw [← List.map_id s.transactions]
  apply List.map_congr_left
  intro t ht
  simp [habs t ht]

/-- C8 amended, at a concrete input: the state after Edit and then Delete on
the second initial record. -/
theorem handleFormSubmit_stale_cursor_witness :
    editThenDeleteState.editingTransaction =
        some ⟨2, "2023-04-02", 50, "Expense", "Groceries"⟩ ∧
      (∀ t ∈ editThenDeleteState.transactions, t.id ≠ 2) ∧
      (handleFormSubmit 1700000000000 ⟨"2023-04-02", 75, "Expense", "Groceries"⟩
          editThenDeleteState).transactions = editThenDeleteState.transactions ∧
      (handleFormSubmit 1700000000000 ⟨"2023-04-02", 75, "Expense", "Groceries"⟩
          editThenDeleteState).editingTransaction = none :=
  ⟨rfl, by decide,
    handleFormSubmit_stale_cursor 1700000000000 ⟨"2023-04-02", 75, "Expense", "Groceries"⟩
      editThenDeleteState ⟨2, "2023-04-02", 50, "Expense", "Groceries"⟩ rfl (by decide)⟩

/-- C9, as stated, fails: a submission with the negative amount `-5` is not
rejected, it is appended to the ledger as a new record. -/
theorem handleFormSubmit_negative_amount_stored :
    (handleFormSubmit 1700000000000 ⟨"2023-04-03", -5, "Expense", "Misc"⟩
        initialState).transactions =
      [⟨1, "2023-04-01", 200, "Income", "Salary"⟩,
        ⟨2, "2023-04-02", 50, "Expense", "Groceries"⟩,
        ⟨1700000000000, "2023-04-03", -5, "Expense", "Misc"⟩] ∧
    (handleFormSubmit 1700000000000 ⟨"2023-04-03", -5, "Expense", "Misc"⟩
        initialState).transactions ≠ initialState.transactions := by
  decide

/-- C9, amended: a submission in which a required field (date, amount, type
or category) is missing is rejected, the form not running `handleFormSubmit`:
the state, and with it the ledger, is unchanged, no record added and none
replaced. The sign of the amount is checked nowhere: a submission the form
lets through is handled by `handleFormSubmit` with its values as they are, a
negative amount included, so that with no edit cursor the ledger becomes the
old ledger followed by the one record submitted, and with a cursor the records
with the id of the cursor become the record submitted. -/
theorem submitForm_rejects_missing_stores_rest (controlsAccept : FormValues → Bool)
    (parseFloat : String → F64) (now : Nat) (v : FormValues) (s : State) :
    ((v.date = "" ∨ v.amount = "" ∨ v.type = "" ∨ v.category = "") →
        submitForm controlsAccept parseFloat now v s = s) ∧
      (requiredFieldsPresent v = true → controlsAccept v = true →
        submitForm controlsAccept parseFloat now v s =
            handleFormSubmit now (readForm parseFloat v) s ∧
          (s.editingTransaction = none →
            (submitForm controlsAccept parseFloat now v s).transactions =
              s.transactions ++
                [⟨now, v.date, parseFloat v.amount, v.type, v.category⟩]) ∧
          (∀ c, s.editingTransaction = some c →
            (submitForm controlsAccept parseFloat now v s).transactions =
              s.transactions.map fun t =>
                if t.id = c.id then
                  ⟨c.id, v.date, parseFloat v.amount, v.type, v.category⟩
                else t)) := by
  constructor
  · intro hmiss
    have hreq : requiredFieldsPresent v = false := by
      unfold requiredFieldsPresent
      rcases hmiss with h | h | h | h <;> simp [h]
    simp [submitForm, hreq]
  · intro hreq hacc
    have hrun : submitForm controlsAccept parseFloat now v s =
        handleFormSubmit now (readForm parseFloat v) s := by
      simp [submitForm, hreq, hacc]
    refine ⟨hrun, ?_, ?_⟩
    · intro hnone
      rw [hrun]
      exact handleFormSubmit_transactions_of_none now (readForm parseFloat v) s hnone
    · intro c hc
      rw [hrun]
      exact handleFormSubmit_transactions_of_some now (readForm parseFloat v) s c hc

/-- C9 amended, at concrete inputs: a submission with an empty date leaves the
initial state as it is, and one with the four fields filled and the amount
`-5` is appended to the initial ledger. -/
theorem submitForm_rejects_missing_stores_rest_witness :
    submitForm typedControlsAccept parseDecimal 1700000000000
        ⟨"", "12.50", "Income", "Salary"⟩ initialState = initialState ∧
      requiredFieldsPresent ⟨"2023-04-03", "-5", "Expense", "Misc"⟩ = true ∧
      typedControlsAccept ⟨"2023-04-03", "-5", "Expense", "Misc"⟩ = true ∧
      initialState.editingTransaction = none ∧
      (submitForm typedControlsAccept parseDecimal 1700000000000
          ⟨"2023-04-03", "-5", "Expense", "Misc"⟩ initialState).transactions =
        [⟨1, "2023-04-01", 200, "Income", "Salary"⟩,
          ⟨2, "2023-04-02", 50, "Expense", "Groceries"⟩,
          ⟨1700000000000, "2023-04-03", -5, "Expense", "Misc"⟩] :=
  ⟨(submitForm_rejects_missing_stores_rest typedControlsAccept parseDecimal 1700000000000
      ⟨"", "12.50", "Income", "Salary"⟩ initialState).1 (Or.inl rfl),
    by decide, by decide, rfl,
    (((submitForm_rejects_missing_stores_rest typedControlsAccept parseDecimal 1700000000000
        ⟨"2023-04-03", "-5", "Expense", "Misc"⟩ initialState).2
      (by decide) (by decide)).2.1 rfl).trans (by decide)⟩

/-! ### The edit cursor -/

/-- C10, at the failing input: Edit on the second initial record followed by
Delete on the same row is a sequence of offered actions, and in the state it
reaches the edit cursor still holds the deleted record, which is no longer in
the ledger. -/
theorem editThenDelete_cursor_not_in_ledger :
    run [.editClick ⟨2, "2023-04-02", 50, "Expense", "Groceries"⟩, .delete 2] initialState =
        some editThenDeleteState ∧
      Reachable editThenDeleteState ∧
      editThenDeleteState.editingTransaction =
        some ⟨2, "2023-04-02", 50, "Expense", "Groceries"⟩ ∧
      (⟨2, "2023-04-02", 50, "Expense", "Groceries"⟩ : Transaction) ∉
        editThenDeleteState.transactions ∧
      ¬ CursorInLedger editThenDeleteState := by
  have hrun :
      run [.editClick ⟨2, "2023-04-02", 50, "Expense", "Groceries"⟩, .delete 2] initialState =
        some editThenDeleteState := by decide
  have hnot : (⟨2, "2023-04-02", 50, "Expense", "Groceries"⟩ : Transaction) ∉
      editThenDeleteState.transactions := by decide
  exact ⟨hrun, ⟨_, hrun⟩, rfl, hnot, fun hinv => hnot (hinv _ rfl)⟩

end MoneyKeeper
